import Mathlib

/-!
# Verification of the web-craft crawling core

A shallow embedding, in Lean 4, of the task-lifecycle and spider-execution
core of the `web-craft` repository, together with theorems settling the
specification claims about it.

Conventions used throughout:

* Python machine-level effects (network transport, the filesystem, `ast.parse`,
  module import) are abstracted into explicit outcome values passed to the
  embedded functions; the functions themselves are translated line by line
  from the Python source.
* Python `float` quantities (delays, progress percentages, file mtimes) are
  modelled as `ℚ`; Python `str` as `String`; Python dicts carried in records
  as association lists.
* A Python function that catches every exception and returns a value is
  modelled as a total function; a raised `KeyError`-style failure that can
  escape is modelled with `Option`.
-/

namespace WebCraft

/-! ## Fetch engine (`worker/spider_engine.py`) -/

/-- The request tuple consumed by the engine: `input.parameter_handler.SpiderRequest`
(url, method, timeout, max_retries) plus the `delay` field that
`SpiderEngine.fetch_with_retry` reads off the request. -/
structure SpiderRequest where
  url : String
  method : String
  timeout : Int
  max_retries : Nat
  delay : ℚ
deriving DecidableEq

/-- Outcome of the one network call made by `SpiderEngine.fetch_sync`
(`self.session.request(...)`): either an HTTP response (any status) or a
transport-level exception (`requests.RequestException` — connection refused,
timeout, DNS failure) carrying its message. -/
inductive TransportOutcome where
  | ok (finalUrl : String) (status : Nat) (content : String)
      (headers : List (String × String)) (encoding : Option String)
  | err (msg : String)
deriving DecidableEq

/-- `worker.spider_engine.SpiderResponse`: the per-attempt fetch result.
`content_length` is computed from `content` by the constructor. -/
structure SpiderResponse where
  url : String
  status_code : Nat
  content : String
  headers : List (String × String)
  encoding : String
  success : Bool
  error_message : Option String
  content_length : Nat
deriving DecidableEq

/-- The `SpiderResponse.__init__` constructor with an explicit `success`
argument (every call site in `fetch_sync` passes `success` explicitly);
`content_length = len(content)`. -/
def mkSpiderResponse (url : String) (status_code : Nat) (content : String)
    (headers : List (String × String)) (encoding : String) (success : Bool)
    (error_message : Option String) : SpiderResponse :=
  ⟨url, status_code, content, headers, encoding, success, error_message,
    content.length⟩

/-- `SpiderEngine.fetch_sync`, as a function of the transport outcome.
On a transport exception the `except` branch builds the failure response.
On an HTTP response, `response.raise_for_status()` raises `requests.HTTPError`
(a `RequestException`) exactly when `400 ≤ status < 600`, which the same
`except` branch converts to the failure shape; otherwise the success
response is built from the response (`encoding or 'utf-8'`). -/
def fetch_sync (req : SpiderRequest) (t : TransportOutcome) : SpiderResponse :=
  match t with
  | .err msg => mkSpiderResponse req.url 0 "" [] "utf-8" false (some msg)
  | .ok u s c h enc =>
      if 400 ≤ s ∧ s < 600 then
        mkSpiderResponse req.url 0 "" [] "utf-8" false
          (some ("HTTP error for url with status " ++ toString s))
      else
        mkSpiderResponse u s c h (enc.getD "utf-8") true none

/-- Observable trace of one `fetch_with_retry` call: the returned value,
the number of `fetch_sync` attempts performed, and the sequence of
`time.sleep` durations, in order. -/
structure RetryTrace where
  result : Option SpiderResponse
  attempts : Nat
  sleeps : List ℚ
deriving DecidableEq

/-- The body of the `for attempt in range(max_retries + 1)` loop of
`SpiderEngine.fetch_with_retry`, at loop index `k` with `fuel` iterations
left (`fuel = max_retries + 1 - k`).  Each iteration calls `fetch_sync`,
returns its response iff its status is exactly 200, and otherwise sleeps
`delay * (attempt + 1)` when further attempts remain.  Falling out of the
loop returns `None`. -/
def retryGo (req : SpiderRequest) (outcomes : Nat → TransportOutcome)
    (k : Nat) : Nat → RetryTrace
  | 0 => ⟨none, 0, []⟩
  | fuel + 1 =>
      let r := fetch_sync req (outcomes k)
      if r.status_code = 200 then ⟨some r, 1, []⟩
      else if fuel = 0 then ⟨none, 1, []⟩
      else
        let rest := retryGo req outcomes (k + 1) fuel
        ⟨rest.result, rest.attempts + 1, req.delay * ((k + 1 : ℕ) : ℚ) :: rest.sleeps⟩

/-- `SpiderEngine.fetch_with_retry`, as a function of the per-attempt
transport outcomes (`outcomes k` is what the network does on attempt `k`). -/
def fetch_with_retry (req : SpiderRequest) (outcomes : Nat → TransportOutcome) :
    RetryTrace :=
  retryGo req outcomes 0 (req.max_retries + 1)

/-- The loop in `fetch_with_retry` performs at most `fuel` attempts. -/
theorem retryGo_attempts_le (req : SpiderRequest) (outcomes : Nat → TransportOutcome) :
    ∀ fuel k, (retryGo req outcomes k fuel).attempts ≤ fuel := by
  intro fuel
  induction fuel with
  | zero => intro k; simp [retryGo]
  | succ f ih =>
      intro k
      simp only [retryGo]
      split
      · simp
      · split
        · simp
        · simpa using Nat.succ_le_succ (ih (k + 1))

/-- The loop in `fetch_with_retry` only returns a response whose HTTP status
is exactly 200. -/
theorem retryGo_result_status (req : SpiderRequest) (outcomes : Nat → TransportOutcome) :
    ∀ fuel k r, (retryGo req outcomes k fuel).result = some r →
      r.status_code = 200 := by
  intro fuel
  induction fuel with
  | zero => intro k r h; simp [retryGo] at h
  | succ f ih =>
      intro k r h
      simp only [retryGo] at h
      split at h
      · next h200 =>
          simp only [Option.some.injEq] at h
          subst h
          exact h200
      · split at h
        · simp at h
        · exact ih (k + 1) r h

/-- Shifting the backoff-sleep schedule by one attempt: the first sleep
followed by the schedule for attempts starting at `k + 1` is the schedule
for attempts starting at `k`. -/
theorem sleeps_shift (d : ℚ) (k n : Nat) :
    d * ((k + 1 : ℕ) : ℚ) ::
        (List.range n).map (fun j => d * ((k + 1 + j + 1 : ℕ) : ℚ)) =
      (List.range (n + 1)).map (fun j => d * ((k + j + 1 : ℕ) : ℚ)) := by
  rw [List.range_succ_eq_map, List.map_cons, List.map_map]
  refine congrArg₂ _ (congrArg (fun m : ℕ => d * (m : ℚ)) (by omega)) ?_
  refine List.map_congr_left ?_
  intro j _
  simp only [Function.comp]
  exact congrArg (fun m : ℕ => d * (m : ℚ)) (by omega)

/-- When no attempt in the window yields status 200, the loop exhausts all
`fuel` attempts, sleeps `delay * (attempt + 1)` after every attempt but the
last, and returns `None`. -/
theorem retryGo_none (req : SpiderRequest) (outcomes : Nat → TransportOutcome) :
    ∀ fuel k,
      (∀ j, j < fuel → (fetch_sync req (outcomes (k + j))).status_code ≠ 200) →
      retryGo req outcomes k fuel =
        ⟨none, fuel,
          (List.range (fuel - 1)).map (fun j => req.delay * ((k + j + 1 : ℕ) : ℚ))⟩ := by
  intro fuel
  induction fuel with
  | zero => intro k _; simp [retryGo]
  | succ f ih =>
      intro k h
      have h0 : (fetch_sync req (outcomes k)).status_code ≠ 200 := by
        simpa using h 0 (Nat.succ_pos f)
      simp only [retryGo]
      rw [if_neg h0]
      rcases Nat.eq_zero_or_pos f with hf | hf
      · subst hf; simp
      · obtain ⟨f', rfl⟩ : ∃ f', f = f' + 1 := ⟨f - 1, by omega⟩
        rw [if_neg (by omega : ¬f' + 1 = 0)]
        have hshift : ∀ j, j < f' + 1 →
            (fetch_sync req (outcomes (k + 1 + j))).status_code ≠ 200 := by
          intro j hj
          have := h (j + 1) (Nat.succ_lt_succ hj)
          simpa [Nat.add_assoc, Nat.add_comm 1 j] using this
        rw [ih (k + 1) hshift]
        simp only [Nat.add_sub_cancel]
        congr 1
        exact sleeps_shift req.delay k f'

/-- When attempt `i` is the first to yield status 200 (and it is inside the
window), the loop stops there: it returns that response after `i + 1`
attempts and the `i` backoff sleeps that precede it. -/
theorem retryGo_some (req : SpiderRequest) (outcomes : Nat → TransportOutcome) :
    ∀ fuel i k, i < fuel →
      (∀ j, j < i → (fetch_sync req (outcomes (k + j))).status_code ≠ 200) →
      (fetch_sync req (outcomes (k + i))).status_code = 200 →
      retryGo req outcomes k fuel =
        ⟨some (fetch_sync req (outcomes (k + i))), i + 1,
          (List.range i).map (fun j => req.delay * ((k + j + 1 : ℕ) : ℚ))⟩ := by
  intro fuel
  induction fuel with
  | zero => intro i k h; exact absurd h (Nat.not_lt_zero i)
  | succ f ih =>
      intro i k hif hpre h200
      match i with
      | 0 =>
          simp only [Nat.add_zero] at h200
          simp [retryGo, h200]
      | i' + 1 =>
          have h0 : (fetch_sync req (outcomes k)).status_code ≠ 200 := by
            simpa using hpre 0 (Nat.succ_pos i')
          have hi'f : i' < f := Nat.lt_of_succ_lt_succ hif
          simp only [retryGo]
          rw [if_neg h0, if_neg (by omega : ¬f = 0)]
          have hshift : ∀ j, j < i' →
              (fetch_sync req (outcomes (k + 1 + j))).status_code ≠ 200 := by
            intro j hj
            have := hpre (j + 1) (Nat.succ_lt_succ hj)
            simpa [Nat.add_assoc, Nat.add_comm 1 j] using this
          have h200' : (fetch_sync req (outcomes (k + 1 + i'))).status_code = 200 := by
            have harg : k + 1 + i' = k + (i' + 1) := by omega
            rw [harg]; exact h200
          rw [ih i' (k + 1) hi'f hshift h200']
          have harg : k + 1 + i' = k + (i' + 1) := by omega
          rw [harg]
          congr 1
          exact sleeps_shift req.delay k i'

/-- Claim C1 (amended): `fetch_with_retry` with `max_retries = n` performs at
most `n + 1` attempts; a returned response always has HTTP status exactly 200,
and an attempt with status 200 that is preceded only by non-200 attempts stops
the loop immediately with that response, after `delay * (attempt + 1)` sleeps
between consecutive attempts; when all `n + 1` attempts complete without a
status-200 response, `fetch_with_retry` returns `None` — not the last
`SpiderResponse` obtained. -/
theorem c1_spec (req : SpiderRequest) (outcomes : Nat → TransportOutcome) :
    (fetch_with_retry req outcomes).attempts ≤ req.max_retries + 1 ∧
    (∀ r, (fetch_with_retry req outcomes).result = some r → r.status_code = 200) ∧
    ((∀ k, k ≤ req.max_retries → (fetch_sync req (outcomes k)).status_code ≠ 200) →
      fetch_with_retry req outcomes =
        ⟨none, req.max_retries + 1,
          (List.range req.max_retries).map (fun j => req.delay * ((j + 1 : ℕ) : ℚ))⟩) ∧
    (∀ i, i ≤ req.max_retries →
      (∀ j, j < i → (fetch_sync req (outcomes j)).status_code ≠ 200) →
      (fetch_sync req (outcomes i)).status_code = 200 →
      fetch_with_retry req outcomes =
        ⟨some (fetch_sync req (outcomes i)), i + 1,
          (List.range i).map (fun j => req.delay * ((j + 1 : ℕ) : ℚ))⟩) := by
  have hmap : ∀ n : ℕ,
      (List.range n).map (fun j => req.delay * ((0 + j + 1 : ℕ) : ℚ)) =
        (List.range n).map (fun j => req.delay * ((j + 1 : ℕ) : ℚ)) := by
    intro n
    refine List.map_congr_left ?_
    intro j _
    exact congrArg (fun m : ℕ => req.delay * (m : ℚ)) (by omega)
  refine ⟨retryGo_attempts_le req outcomes _ 0,
          fun r h => retryGo_result_status req outcomes _ 0 r h, ?_, ?_⟩
  · intro h
    have h' : ∀ j, j < req.max_retries + 1 →
        (fetch_sync req (outcomes (0 + j))).status_code ≠ 200 := by
      intro j hj
      simpa using h j (Nat.lt_succ_iff.mp hj)
    rw [fetch_with_retry, retryGo_none req outcomes _ 0 h']
    simp only [Nat.add_sub_cancel]
    congr 1
    exact hmap req.max_retries
  · intro i hi hpre h200
    have hpre' : ∀ j, j < i → (fetch_sync req (outcomes (0 + j))).status_code ≠ 200 := by
      intro j hj; simpa using hpre j hj
    have h200' : (fetch_sync req (outcomes (0 + i))).status_code = 200 := by
      simpa using h200
    rw [fetch_with_retry,
      retryGo_some req outcomes _ i 0 (Nat.lt_succ_iff.mpr hi) hpre' h200']
    rw [Nat.zero_add]
    congr 1
    exact hmap i

/-- A request with `max_retries = 2` and `delay = 1`, used in concrete
scenarios. -/
def exReq : SpiderRequest :=
  ⟨"https://example.com", "GET", 30, 2, 1⟩

/-- A network that refuses the connection on every attempt (Scenario C of the
spec: transport failure 3 times in a row with `max_retries = 2`). -/
def exOutcomesFail : Nat → TransportOutcome :=
  fun _ => .err "connection refused"

/-- Claim C1, counterexample: with `max_retries = 2` and every attempt a
transport failure, `fetch_with_retry` performs 3 attempts but returns `None`,
not the last `FetchResult` obtained, contradicting the claim's final
conjunct. -/
theorem c1_counterexample :
    (fetch_with_retry exReq exOutcomesFail).result = none ∧
    (fetch_with_retry exReq exOutcomesFail).attempts = 3 ∧
    (fetch_with_retry exReq exOutcomesFail).result ≠
      some (fetch_sync exReq (exOutcomesFail 2)) := by
  refine ⟨by decide, by decide, by decide⟩

/-- Concrete instance of `c1_spec`: the exhaustion branch on the
always-failing network. -/
theorem c1_witness :
    fetch_with_retry exReq exOutcomesFail =
      ⟨none, exReq.max_retries + 1,
        (List.range exReq.max_retries).map (fun j => exReq.delay * ((j + 1 : ℕ) : ℚ))⟩ :=
  (c1_spec exReq exOutcomesFail).2.2.1 (by decide)

/-- Claim C2 (amended): `fetch_sync` never raises.  On a transport-level
failure it returns `success = false`, `status_code = 0` and the error message.
When an HTTP response is obtained, `raise_for_status()` converts a 4xx/5xx
status into the same failure shape (`success = false`, `status_code = 0`,
`error_message` set); only statuses outside `[400, 600)` produce
`success = true` with the response's own status code — `success` does not
reflect bare transport success. -/
theorem c2_spec (req : SpiderRequest) :
    (∀ msg, (fetch_sync req (.err msg)).success = false ∧
      (fetch_sync req (.err msg)).status_code = 0 ∧
      (fetch_sync req (.err msg)).error_message = some msg) ∧
    (∀ u s c h e, 400 ≤ s → s < 600 →
      (fetch_sync req (.ok u s c h e)).success = false ∧
      (fetch_sync req (.ok u s c h e)).status_code = 0 ∧
      (fetch_sync req (.ok u s c h e)).error_message.isSome = true) ∧
    (∀ u s c h e, ¬(400 ≤ s ∧ s < 600) →
      (fetch_sync req (.ok u s c h e)).success = true ∧
      (fetch_sync req (.ok u s c h e)).status_code = s ∧
      (fetch_sync req (.ok u s c h e)).error_message = none) := by
  refine ⟨fun msg => ⟨rfl, rfl, rfl⟩, ?_, ?_⟩
  · intro u s c h e h4 h6
    simp [fetch_sync, mkSpiderResponse, h4, h6]
  · intro u s c h e hno
    simp [fetch_sync, mkSpiderResponse, hno]

/-- Claim C2, counterexample: an HTTP response with status 404 is obtained
from the transport, yet the result has `success = false` and
`status_code = 0` (because `raise_for_status()` raises), contradicting the
claim that any obtained HTTP response yields `success = true`. -/
theorem c2_counterexample :
    (fetch_sync exReq (.ok "https://example.com/x" 404 "<html>" [] (some "utf-8"))).success
        = false ∧
    (fetch_sync exReq (.ok "https://example.com/x" 404 "<html>" [] (some "utf-8"))).status_code
        = 0 := by
  refine ⟨rfl, rfl⟩

/-- Concrete instance of `c2_spec`: a transport error, a 404 response and a
200 response. -/
theorem c2_witness :
    (fetch_sync exReq (.ok "u" 404 "c" [] none)).success = false ∧
    (fetch_sync exReq (.ok "u" 200 "c" [] none)).success = true := by
  refine ⟨((c2_spec exReq).2.1 "u" 404 "c" [] none (by decide) (by decide)).1,
          ((c2_spec exReq).2.2 "u" 200 "c" [] none (by decide)).1⟩

/-! ## Spider code validator (`spiders/core/spider_validator.py`) -/

/-- `spiders.core.spider_validator.ValidationError`: one error entry
(`type` ∈ {syntax_error, import_error, structure_error, field_error}). -/
structure ValidationError where
  type : String
  message : String
  line : Option Nat
  detail : Option String
deriving DecidableEq

/-- `spiders.core.spider_validator.ValidationResult`. -/
structure ValidationResult where
  success : Bool
  errors : List ValidationError
deriving DecidableEq

/-- `ValidationResult.add_error`: sets `success = False` and appends the
entry. -/
def addError (r : ValidationResult) (type message : String) (line : Option Nat)
    (detail : Option String) : ValidationResult :=
  ⟨false, r.errors ++ [⟨type, message, line, detail⟩]⟩

/-- Outcome of `ast.parse(code)`: success, a `SyntaxError` (with its `msg`,
`lineno` and `offset`), or some other exception. -/
inductive ParseOutcome where
  | ok
  | syntaxError (msg : String) (line : Option Nat) (col : Option Nat)
  | otherError (msg : String)
deriving DecidableEq

/-- Rendering of an optional number inside a Python f-string
(`None` prints as `"None"`). -/
def optNatStr : Option Nat → String
  | Option.none => "None"
  | some n => toString n

/-- `SpiderValidator.validate_syntax`, as a function of the `ast.parse`
outcome. -/
def validate_syntax_stage (p : ParseOutcome) : ValidationResult :=
  match p with
  | .ok => ⟨true, []⟩
  | .syntaxError m l c =>
      addError ⟨true, []⟩ "syntax_error" ("Syntax error: " ++ m) l
        (some ("at line " ++ optNatStr l ++ ", column " ++ optNatStr c))
  | .otherError m =>
      addError ⟨true, []⟩ "syntax_error" ("Failed to parse code: " ++ m)
        Option.none Option.none

/-- Value of a class attribute as seen by `validate_structure`: a Python
string, `None`, or some non-string value. -/
inductive AttrVal where
  | str (s : String)
  | none
  | nonStr
deriving DecidableEq

/-- The `parse` attribute of a candidate class: whether it is callable, and
whether it appears in the class's own `__dict__` (declared on the class
itself rather than inherited from `BaseSpider`). -/
structure ParseMember where
  callable : Bool
  inClassDict : Bool
deriving DecidableEq

/-- The shape of a candidate spider class, as observed by
`validate_structure`: each attribute either absent (`hasattr` false) or
present with a value. -/
structure SpiderClassShape where
  name : Option AttrVal
  start_url : Option AttrVal
  parse : Option ParseMember
deriving DecidableEq

/-- Python's `str.strip()`: removes leading and trailing whitespace.
Implemented over the character list so that it evaluates by kernel
reduction. -/
def pyStrip (s : String) : String :=
  String.mk (((s.data.dropWhile Char.isWhitespace).reverse.dropWhile
    Char.isWhitespace).reverse)

/-- The `name`-field block of `SpiderValidator.validate_structure`:
absent → `structure_error`; `None` or non-string → `field_error`;
blank after strip → `field_error`. -/
def checkNameField (c : SpiderClassShape) (r : ValidationResult) : ValidationResult :=
  match c.name with
  | Option.none =>
      addError r "structure_error" "Spider class must define 'name' field"
        Option.none Option.none
  | some AttrVal.none | some AttrVal.nonStr =>
      addError r "field_error" "Spider 'name' field must be a non-empty string"
        Option.none Option.none
  | some (AttrVal.str s) =>
      if pyStrip s = "" then
        addError r "field_error" "Spider 'name' field cannot be empty"
          Option.none Option.none
      else r

/-- The `start_url`-field block of `SpiderValidator.validate_structure`. -/
def checkStartUrlField (c : SpiderClassShape) (r : ValidationResult) : ValidationResult :=
  match c.start_url with
  | Option.none =>
      addError r "structure_error" "Spider class must define 'start_url' field"
        Option.none Option.none
  | some AttrVal.none | some AttrVal.nonStr =>
      addError r "field_error" "Spider 'start_url' field must be a non-empty string"
        Option.none Option.none
  | some (AttrVal.str s) =>
      if pyStrip s = "" then
        addError r "field_error" "Spider 'start_url' field cannot be empty"
          Option.none Option.none
      else r

/-- The `parse`-member block of `SpiderValidator.validate_structure`:
absent → `structure_error`; not callable → `structure_error`; not in the
class's own `__dict__` → `structure_error`. -/
def checkParseMember (c : SpiderClassShape) (r : ValidationResult) : ValidationResult :=
  match c.parse with
  | Option.none =>
      addError r "structure_error" "Spider class must implement 'parse()' method"
        Option.none Option.none
  | some p =>
      if ¬p.callable then
        addError r "structure_error" "Spider 'parse' must be a callable method"
          Option.none Option.none
      else if ¬p.inClassDict then
        addError r "structure_error"
          "Spider class must override 'parse()' method from BaseSpider"
          Option.none Option.none
      else r

/-- `SpiderValidator.validate_structure`: the three attribute checks run in
sequence on one accumulating result. -/
def validate_structure (c : SpiderClassShape) : ValidationResult :=
  checkParseMember c (checkStartUrlField c (checkNameField c ⟨true, []⟩))

/-- Outcome of stage 2's isolated import (`importlib.import_module` on the
temporary module): an `ImportError`, an `AttributeError`, another exception,
or a loaded module together with the first class found that inherits from
`BaseSpider` (if any). -/
inductive ImportOutcome where
  | importError (msg : String)
  | attrError (msg : String)
  | loadError (msg : String)
  | loaded (found : Option SpiderClassShape)
deriving DecidableEq

/-- `SpiderValidator.validate_import`, as a function of the import outcome
(the filesystem bookkeeping — temp dir, `sys.path`, `sys.modules` — has no
bearing on the returned result and is not modelled). -/
def validate_import_stage (o : ImportOutcome) : ValidationResult :=
  match o with
  | .importError m =>
      addError ⟨true, []⟩ "import_error" ("Import error: " ++ m)
        Option.none (some "Check if all required modules are available")
  | .attrError m =>
      addError ⟨true, []⟩ "import_error" ("Attribute error: " ++ m)
        Option.none (some "Check if all referenced attributes exist")
  | .loadError m =>
      addError ⟨true, []⟩ "import_error" ("Failed to load module: " ++ m)
        Option.none Option.none
  | .loaded Option.none =>
      addError ⟨true, []⟩ "structure_error"
        "No valid spider class found that inherits from BaseSpider"
        Option.none Option.none
  | .loaded (some c) =>
      let sr := validate_structure c
      if sr.success then ⟨true, []⟩ else ⟨false, sr.errors⟩

/-- `SpiderValidator.validate_all`: stage 1, then — only if it succeeded —
stage 2 (which itself runs stage 3 on the discovered class). -/
def validate_all (p : ParseOutcome) (o : ImportOutcome) : ValidationResult :=
  let s := validate_syntax_stage p
  if s.success then validate_import_stage o else s

/-- A check block never removes errors: anything in the incoming result's
error list is still in the outgoing one. -/
theorem mem_addError {r : ValidationResult} {e : ValidationError}
    (t m : String) (l : Option Nat) (d : Option String) (he : e ∈ r.errors) :
    e ∈ (addError r t m l d).errors := by
  simp only [addError, List.mem_append]
  exact Or.inl he

/-- `checkStartUrlField` preserves previously collected errors. -/
theorem mem_checkStartUrlField {c : SpiderClassShape} {r : ValidationResult}
    {e : ValidationError} (he : e ∈ r.errors) :
    e ∈ (checkStartUrlField c r).errors := by
  unfold checkStartUrlField
  rcases c.start_url with _ | v
  · exact mem_addError _ _ _ _ he
  · rcases v with s | _ | _
    · dsimp only
      split
      · exact mem_addError _ _ _ _ he
      · exact he
    · exact mem_addError _ _ _ _ he
    · exact mem_addError _ _ _ _ he

/-- `checkParseMember` preserves previously collected errors. -/
theorem mem_checkParseMember {c : SpiderClassShape} {r : ValidationResult}
    {e : ValidationError} (he : e ∈ r.errors) :
    e ∈ (checkParseMember c r).errors := by
  unfold checkParseMember
  rcases c.parse with _ | p
  · exact mem_addError _ _ _ _ he
  · dsimp only
    split
    · exact mem_addError _ _ _ _ he
    · split
      · exact mem_addError _ _ _ _ he
      · exact he

/-- Claim C4: when `ast.parse` fails, `validate_all` returns exactly one
error, of kind `syntax_error` — no `import_error`, `structure_error` or
`field_error` entries, because stages 2 and 3 are skipped entirely — and
when the failure is a `SyntaxError` the single entry carries the offending
line. -/
theorem c4_spec (p : ParseOutcome) (o : ImportOutcome) (hp : p ≠ ParseOutcome.ok) :
    (validate_all p o).success = false ∧
    (validate_all p o).errors.length = 1 ∧
    (∀ e ∈ (validate_all p o).errors, e.type = "syntax_error") ∧
    (∀ m l c, p = ParseOutcome.syntaxError m l c →
      ∀ e ∈ (validate_all p o).errors, e.line = l) := by
  cases p with
  | ok => exact absurd rfl hp
  | syntaxError m l c =>
      refine ⟨rfl, rfl, ?_, ?_⟩
      · intro e he
        simp only [validate_all, validate_syntax_stage, addError, List.nil_append,
          if_neg Bool.false_ne_true, List.mem_singleton] at he
        rw [he]
      · intro m' l' c' hpe e he
        injection hpe with hm hl hc
        subst hl
        simp only [validate_all, validate_syntax_stage, addError, List.nil_append,
          if_neg Bool.false_ne_true, List.mem_singleton] at he
        rw [he]
  | otherError m =>
      refine ⟨rfl, rfl, ?_, ?_⟩
      · intro e he
        simp only [validate_all, validate_syntax_stage, addError, List.nil_append,
          if_neg Bool.false_ne_true, List.mem_singleton] at he
        rw [he]
      · intro m' l' c' hpe
        exact absurd hpe (by simp)

/-- Concrete instance of `c4_spec`: a `SyntaxError` at line 3 yields exactly
one error. -/
theorem c4_witness :
    (validate_all (ParseOutcome.syntaxError "invalid syntax" (some 3) (some 7))
        (ImportOutcome.loaded Option.none)).errors.length = 1 :=
  (c4_spec (ParseOutcome.syntaxError "invalid syntax" (some 3) (some 7))
    (ImportOutcome.loaded Option.none) (by decide)).2.1

/-- Claim C5: for a candidate class reaching the structure stage, an absent
`name` declaration yields a `structure_error` mentioning `name`; a declared
`name` that is `None`, a non-string, or a string blank after strip yields a
`field_error` mentioning `name`. -/
theorem c5_spec (c : SpiderClassShape) :
    (c.name = Option.none →
      ∃ e ∈ (validate_structure c).errors, e.type = "structure_error" ∧
        e.message = "Spider class must define 'name' field") ∧
    (∀ s, c.name = some (AttrVal.str s) → pyStrip s = "" →
      ∃ e ∈ (validate_structure c).errors, e.type = "field_error" ∧
        e.message = "Spider 'name' field cannot be empty") ∧
    ((c.name = some AttrVal.none ∨ c.name = some AttrVal.nonStr) →
      ∃ e ∈ (validate_structure c).errors, e.type = "field_error" ∧
        e.message = "Spider 'name' field must be a non-empty string") := by
  refine ⟨?_, ?_, ?_⟩
  · intro h
    refine ⟨⟨"structure_error", "Spider class must define 'name' field",
      Option.none, Option.none⟩, ?_, rfl, rfl⟩
    apply mem_checkParseMember
    apply mem_checkStartUrlField
    unfold checkNameField
    rw [h]
    simp [addError]
  · intro s hs htrim
    refine ⟨⟨"field_error", "Spider 'name' field cannot be empty",
      Option.none, Option.none⟩, ?_, rfl, rfl⟩
    apply mem_checkParseMember
    apply mem_checkStartUrlField
    unfold checkNameField
    rw [hs]
    simp only [htrim, if_pos rfl]
    simp [addError]
  · intro h
    refine ⟨⟨"field_error", "Spider 'name' field must be a non-empty string",
      Option.none, Option.none⟩, ?_, rfl, rfl⟩
    apply mem_checkParseMember
    apply mem_checkStartUrlField
    unfold checkNameField
    rcases h with h | h <;> rw [h] <;> simp [addError]

/-- A candidate class that omits the `name` declaration entirely. -/
def exShapeNoName : SpiderClassShape :=
  ⟨Option.none, some (AttrVal.str "https://example.com"), some ⟨true, true⟩⟩

/-- A candidate class whose `name` is a whitespace-only string. -/
def exShapeBlankName : SpiderClassShape :=
  ⟨some (AttrVal.str " "), some (AttrVal.str "https://example.com"), some ⟨true, true⟩⟩

/-- Concrete instances of `c5_spec`: the two scenarios named by the spec. -/
theorem c5_witness :
    (∃ e ∈ (validate_structure exShapeNoName).errors, e.type = "structure_error" ∧
      e.message = "Spider class must define 'name' field") ∧
    (∃ e ∈ (validate_structure exShapeBlankName).errors, e.type = "field_error" ∧
      e.message = "Spider 'name' field cannot be empty") :=
  ⟨(c5_spec exShapeNoName).1 rfl,
    (c5_spec exShapeBlankName).2.1 " " rfl (by decide)⟩

/-! ## Python-dict helpers

Python dict state (`self._spiders`, `self._spider_instances`) is modelled as
an association list with first-match lookup; `dictSet` is `d[k] = v`
(replace in place, or append preserving insertion order). -/

/-- First-match lookup in an association list (Python `d.get(k)`). -/
def dictGet {β : Type} (l : List (String × β)) (k : String) : Option β :=
  match l with
  | [] => Option.none
  | p :: rest => if p.1 = k then some p.2 else dictGet rest k

/-- Python `d[k] = v`: replace the first binding of `k` in place, or append
a new binding. -/
def dictSet {β : Type} (l : List (String × β)) (k : String) (v : β) :
    List (String × β) :=
  match l with
  | [] => [(k, v)]
  | p :: rest => if p.1 = k then (k, v) :: rest else p :: dictSet rest k v

/-- Lookup after update: the updated key maps to the new value, all other
keys are unchanged. -/
theorem dictGet_dictSet {β : Type} (l : List (String × β)) (k : String) (v : β)
    (m : String) :
    dictGet (dictSet l k v) m = if m = k then some v else dictGet l m := by
  induction l with
  | nil =>
      by_cases h : m = k
      · subst h
        simp [dictSet, dictGet]
      · have h' : ¬k = m := fun hh => h hh.symm
        simp [dictSet, dictGet, h, h']
  | cons p rest ih =>
      by_cases hp : p.1 = k
      · by_cases h : m = k
        · subst h
          simp [dictSet, dictGet, hp]
        · have h' : ¬k = m := fun hh => h hh.symm
          simp [dictSet, dictGet, hp, h, h']
      · by_cases h : m = k
        · subst h
          simp [dictSet, dictGet, hp, ih]
        · simp [dictSet, dictGet, hp, ih, h]

/-! ## Spider loader (`spiders/core/spider_loader.py`) -/

/-- Identity of a concrete spider class (a `BaseSpider` subclass).  Two
classes with the same id are the same Python class object. -/
structure SpiderClassId where
  id : Nat
deriving DecidableEq

/-- `SpiderLoader` state: `_spiders` maps names to registered classes;
`_spider_instances` caches the singleton instance per name, recorded here
by the class it was instantiated from (which determines the instance's
behaviour). -/
structure LoaderState where
  spiders : List (String × SpiderClassId)
  instances : List (String × SpiderClassId)
deriving DecidableEq

/-- `SpiderLoader.register_spider` (the `issubclass` check always passes for
a `SpiderClassId`, which stands for a `BaseSpider` subclass). -/
def register_spider (l : LoaderState) (name : String) (cls : SpiderClassId) :
    LoaderState :=
  ⟨dictSet l.spiders name cls, l.instances⟩

/-- `SpiderLoader.get_spider`: an unknown name falls back to `"default"`;
the instance cache is consulted first and filled on miss from `_spiders`.
The first component is the class of the returned instance; `none` models the
`KeyError` escaping from `self._spiders[name]` when the resolved name is
unregistered. -/
def get_spider (l : LoaderState) (name : String) :
    Option SpiderClassId × LoaderState :=
  let n := if (dictGet l.spiders name).isSome then name else "default"
  match dictGet l.instances n with
  | some c => (some c, l)
  | Option.none =>
      match dictGet l.spiders n with
      | some cls => (some cls, ⟨l.spiders, dictSet l.instances n cls⟩)
      | Option.none => (Option.none, l)

/-- `SpiderLoader._discover_custom_spiders`, as a function of the candidate
(name, class) pairs produced by scanning `spiders/spiders/*.py`: each
candidate is registered only if its name is truthy and not yet bound
(first registration wins); instances are not cached during discovery. -/
def discover_spiders (cands : List (String × SpiderClassId)) (l : LoaderState) :
    LoaderState :=
  cands.foldl
    (fun acc c =>
      if c.1 ≠ "" ∧ (dictGet acc.spiders c.1).isNone then
        register_spider acc c.1 c.2
      else acc)
    l

/-- `SpiderLoader.__init__`: empty dicts, then discovery. -/
def initLoader (cands : List (String × SpiderClassId)) : LoaderState :=
  discover_spiders cands ⟨[], []⟩

/-- `SpiderLoader.reload_spiders`: clear both dicts, then re-discover. -/
def reload_spiders (cands : List (String × SpiderClassId)) (_l : LoaderState) :
    LoaderState :=
  discover_spiders cands ⟨[], []⟩

/-- The loader states the program can put the global loader in:
construction, lookups, and reloads (the service layer mutates spiders only
through file edits followed by `reload_spiders`; `register_spider` is called
only from inside discovery). -/
inductive Reachable : LoaderState → Prop where
  | init (cands : List (String × SpiderClassId)) : Reachable (initLoader cands)
  | get (l : LoaderState) (n : String) : Reachable l → Reachable (get_spider l n).2
  | reload (l : LoaderState) (cands : List (String × SpiderClassId)) :
      Reachable l → Reachable (reload_spiders cands l)

/-- Cache consistency: every cached singleton instance was created from the
class currently registered under its name. -/
def CacheConsistent (l : LoaderState) : Prop :=
  ∀ n c, dictGet l.instances n = some c → dictGet l.spiders n = some c

/-- Discovery never touches the instance cache. -/
theorem discover_spiders_instances (cands : List (String × SpiderClassId)) :
    ∀ l, (discover_spiders cands l).instances = l.instances := by
  induction cands with
  | nil => intro l; rfl
  | cons c rest ih =>
      intro l
      simp only [discover_spiders, List.foldl_cons]
      split
      · exact ih (register_spider l c.1 c.2)
      · exact ih l

/-- `get_spider` preserves cache consistency: a cache entry is only added
from the current registration of the resolved name. -/
theorem get_spider_consistent (l : LoaderState) (name : String)
    (hc : CacheConsistent l) : CacheConsistent (get_spider l name).2 := by
  have key : ∀ n' : String,
      CacheConsistent
        (match dictGet l.instances n' with
          | some c => (some c, l)
          | Option.none =>
              match dictGet l.spiders n' with
              | some cls =>
                  (some cls,
                    (⟨l.spiders, dictSet l.instances n' cls⟩ : LoaderState))
              | Option.none => ((Option.none : Option SpiderClassId), l)).2 := by
    intro n'
    rcases hinst : dictGet l.instances n' with _ | c
    · rcases hsp : dictGet l.spiders n' with _ | cls
      · simpa using hc
      · intro m c hget
        simp only at hget ⊢
        rw [dictGet_dictSet] at hget
        by_cases hm : m = n'
        · rw [if_pos hm] at hget
          rw [Option.some.injEq] at hget
          rw [hm, ← hget]
          exact hsp
        · rw [if_neg hm] at hget
          exact hc m c hget
    · simpa using hc
  exact key (if (dictGet l.spiders name).isSome then name else "default")

/-- Every reachable loader state is cache-consistent. -/
theorem reachable_consistent {l : LoaderState} (h : Reachable l) :
    CacheConsistent l := by
  induction h with
  | init cands =>
      intro n c hget
      have hi : (initLoader cands).instances = [] :=
        discover_spiders_instances cands ⟨[], []⟩
      rw [hi] at hget
      exact absurd hget (by simp [dictGet])
  | get l n _ ih => exact get_spider_consistent l n ih
  | reload l cands _ _ =>
      intro n c hget
      have hi : (reload_spiders cands l).instances = [] :=
        discover_spiders_instances cands ⟨[], []⟩
      rw [hi] at hget
      exact absurd hget (by simp [dictGet])

/-- Claim C3: in every reachable loader state in which `"default"` is
registered, `get_spider` on an unregistered name returns (an instance of)
the strategy registered under `"default"` without raising, and on a
registered name it returns (an instance of) the strategy bound to that
name. -/
theorem c3_spec (l : LoaderState) (name : String) (dc : SpiderClassId)
    (hreach : Reachable l) (hdef : dictGet l.spiders "default" = some dc) :
    (dictGet l.spiders name = Option.none → (get_spider l name).1 = some dc) ∧
    (∀ c, dictGet l.spiders name = some c → (get_spider l name).1 = some c) := by
  have hcons := reachable_consistent hreach
  constructor
  · intro hnone
    rcases hinst : dictGet l.instances "default" with _ | c
    · simp only [get_spider, hnone, Option.isSome_none, Bool.false_eq_true,
        if_false, hinst, hdef]
    · have heq := hcons "default" c hinst
      rw [hdef, Option.some.injEq] at heq
      simp only [get_spider, hnone, Option.isSome_none, Bool.false_eq_true,
        if_false, hinst, heq]
  · intro c hsome
    rcases hinst : dictGet l.instances name with _ | c'
    · simp only [get_spider, hsome, Option.isSome_some, if_true, hinst]
    · have heq := hcons name c' hinst
      rw [hsome, Option.some.injEq] at heq
      simp only [get_spider, hsome, Option.isSome_some, if_true, hinst, heq]

/-- The `"default"` spider class of the shipped tree. -/
def exDefaultClass : SpiderClassId := ⟨0⟩

/-- The `"hackernews"` spider class of the shipped tree. -/
def exHnClass : SpiderClassId := ⟨1⟩

/-- Concrete instance of `c3_spec`: a freshly discovered loader serving an
unregistered name `"ghost"` falls back to the default strategy. -/
theorem c3_witness :
    (get_spider (initLoader [("default", exDefaultClass), ("hackernews", exHnClass)])
      "ghost").1 = some exDefaultClass :=
  (c3_spec (initLoader [("default", exDefaultClass), ("hackernews", exHnClass)])
    "ghost" exDefaultClass
    (Reachable.init [("default", exDefaultClass), ("hackernews", exHnClass)])
    (by decide)).1 (by decide)

/-! ## Task data model (`tasks/models.py`) -/

/-- `tasks.models.TaskStatus` (a `str`-valued enum). -/
inductive TaskStatus where
  | PENDING
  | RUNNING
  | COMPLETED
  | FAILED
  | CANCELLED
deriving DecidableEq

/-- The string value of a `TaskStatus` member. -/
def TaskStatus.value : TaskStatus → String
  | .PENDING => "pending"
  | .RUNNING => "running"
  | .COMPLETED => "completed"
  | .FAILED => "failed"
  | .CANCELLED => "cancelled"

/-- `TaskStatus(s)`: the member with value `s`, or `None` for the
`ValueError` raised on an unknown value. -/
def TaskStatus.ofValue (s : String) : Option TaskStatus :=
  if s = "pending" then some .PENDING
  else if s = "running" then some .RUNNING
  else if s = "completed" then some .COMPLETED
  else if s = "failed" then some .FAILED
  else if s = "cancelled" then some .CANCELLED
  else Option.none

/-- `tasks.models.TaskType` (a `str`-valued enum with the sole member
`SINGLE`). -/
inductive TaskType where
  | SINGLE
deriving DecidableEq

/-- The string value of a `TaskType` member. -/
def TaskType.value : TaskType → String
  | .SINGLE => "single"

/-- `TaskType(s)`: the member with value `s`, or `None` for the `ValueError`
raised on an unknown value. -/
def TaskType.ofValue (s : String) : Option TaskType :=
  if s = "single" then some .SINGLE else Option.none

/-- `tasks.models.SpiderTask` (after `__post_init__`, so `headers` and
`result_files` are plain dicts, never `None`).  Numeric fields keep Python's
types: ints as `Int`, floats as `ℚ`. -/
structure SpiderTask where
  task_id : String
  task_type : TaskType
  status : TaskStatus
  created_at : String
  updated_at : String
  urls : List String
  spider_name : String
  method : String
  headers : List (String × String)
  timeout : Int
  max_retries : Int
  delay : ℚ
  progress : ℚ
  processed_urls : Int
  successful_count : Int
  failed_count : Int
  error_message : Option String
  result_files : List (String × String)
  execution_time : Option ℚ
deriving DecidableEq

/-- `SpiderTask.update_status`: sets the status and `updated_at`; the error
message is overwritten only when the argument is truthy (non-`None` and
non-empty). -/
def update_status_op (t : SpiderTask) (st : TaskStatus) (err : Option String)
    (now : String) : SpiderTask :=
  { t with
    status := st
    updated_at := now
    error_message :=
      match err with
      | some m => if m = "" then t.error_message else some m
      | Option.none => t.error_message }

/-- `SpiderTask.update_progress`: stores the three counters and recomputes
`progress = processed_urls / len(urls) * 100` whenever `urls` is
non-empty (leaving `progress` untouched otherwise). -/
def update_progress_op (t : SpiderTask) (processed successful failed : Int)
    (now : String) : SpiderTask :=
  { t with
    processed_urls := processed
    successful_count := successful
    failed_count := failed
    progress :=
      if 0 < t.urls.length then (processed : ℚ) / (t.urls.length : ℚ) * 100
      else t.progress
    updated_at := now }

/-- `SpiderTask.set_completed`: terminal bookkeeping, with
`progress = 100.0`. -/
def set_completed_op (t : SpiderTask) (result_files : List (String × String))
    (execution_time : ℚ) (now : String) : SpiderTask :=
  { t with
    status := TaskStatus.COMPLETED
    result_files := result_files
    execution_time := some execution_time
    progress := 100
    updated_at := now }

/-- The mutating operations a task undergoes during its lifetime. -/
inductive TaskOp where
  | updStatus (st : TaskStatus) (err : Option String) (now : String)
  | updProgress (processed successful failed : Int) (now : String)
  | complete (result_files : List (String × String)) (execution_time : ℚ)
      (now : String)

/-- Apply one lifetime operation to a task. -/
def applyOp (t : SpiderTask) : TaskOp → SpiderTask
  | .updStatus st e n => update_status_op t st e n
  | .updProgress p s f n => update_progress_op t p s f n
  | .complete rf e n => set_completed_op t rf e n

/-! ## Serialization (`SpiderTask.to_dict` / `from_dict`, C8)

`to_json`/`from_json` are `json.dumps`/`json.loads` around `to_dict` and
`from_dict`; `json.loads(json.dumps(doc))` is the identity on JSON
documents, so the text layer is modelled as the document itself. -/

/-- A JSON document as produced by `json.dumps(asdict(task))`: numbers are
modelled as `ℚ` (JSON ints are the `q.den = 1` values). -/
inductive PyJson where
  | null
  | str (s : String)
  | num (q : ℚ)
  | arr (elems : List PyJson)
  | obj (fields : List (String × PyJson))

/-- Serialize an optional string (`None` → JSON `null`). -/
def optStrJson : Option String → PyJson
  | Option.none => .null
  | some s => .str s

/-- Serialize an optional float (`None` → JSON `null`). -/
def optRatJson : Option ℚ → PyJson
  | Option.none => .null
  | some q => .num q

/-- `SpiderTask.to_dict` (`dataclasses.asdict`) followed by JSON
serialization: the `str`-enum fields serialize as their value strings; keys
appear in dataclass field order. -/
def to_dict (t : SpiderTask) : List (String × PyJson) :=
  [("task_id", .str t.task_id),
   ("task_type", .str t.task_type.value),
   ("status", .str t.status.value),
   ("created_at", .str t.created_at),
   ("updated_at", .str t.updated_at),
   ("urls", .arr (t.urls.map PyJson.str)),
   ("spider_name", .str t.spider_name),
   ("method", .str t.method),
   ("headers", .obj (t.headers.map (fun p => (p.1, PyJson.str p.2)))),
   ("timeout", .num (t.timeout : ℚ)),
   ("max_retries", .num (t.max_retries : ℚ)),
   ("delay", .num t.delay),
   ("progress", .num t.progress),
   ("processed_urls", .num (t.processed_urls : ℚ)),
   ("successful_count", .num (t.successful_count : ℚ)),
   ("failed_count", .num (t.failed_count : ℚ)),
   ("error_message", optStrJson t.error_message),
   ("result_files", .obj (t.result_files.map (fun p => (p.1, PyJson.str p.2)))),
   ("execution_time", optRatJson t.execution_time)]

/-- Read a JSON string into a `str` field. -/
def jStr : Option PyJson → Option String
  | some (PyJson.str s) => some s
  | _ => Option.none

/-- Read a JSON integer into an `int` field. -/
def jInt : Option PyJson → Option Int
  | some (PyJson.num q) => if q.den = 1 then some q.num else Option.none
  | _ => Option.none

/-- Read a JSON number into a `float` field. -/
def jNum : Option PyJson → Option ℚ
  | some (PyJson.num q) => some q
  | _ => Option.none

/-- Read a JSON string-or-null into an `Optional[str]` field. -/
def jOptStr : Option PyJson → Option (Option String)
  | some PyJson.null => some Option.none
  | some (PyJson.str s) => some (some s)
  | _ => Option.none

/-- Read a JSON number-or-null into an `Optional[float]` field. -/
def jOptNum : Option PyJson → Option (Option ℚ)
  | some PyJson.null => some Option.none
  | some (PyJson.num q) => some (some q)
  | _ => Option.none

/-- Read a JSON array of strings into a `List[str]` field. -/
def strListFromJson : List PyJson → Option (List String)
  | [] => some []
  | PyJson.str s :: rest => (strListFromJson rest).map (fun l => s :: l)
  | _ => Option.none

/-- Lift `strListFromJson` to the looked-up value. -/
def jStrList : Option PyJson → Option (List String)
  | some (PyJson.arr l) => strListFromJson l
  | _ => Option.none

/-- Read a JSON object of strings into a `Dict[str, str]` field. -/
def strDictFromJson : List (String × PyJson) → Option (List (String × String))
  | [] => some []
  | (k, PyJson.str s) :: rest => (strDictFromJson rest).map (fun l => (k, s) :: l)
  | _ => Option.none

/-- Lift `strDictFromJson` to the looked-up value (`null` becomes the empty
dict, as `__post_init__` replaces a `None` value with `{}`). -/
def jStrDict : Option PyJson → Option (List (String × String))
  | some (PyJson.obj l) => strDictFromJson l
  | some PyJson.null => some []
  | _ => Option.none

/-- `SpiderTask.from_dict` over the parsed JSON document: the two enum
fields go through `TaskType(...)`/`TaskStatus(...)`; the remaining fields are
bound by `cls(**data)` with the types the dataclass declares. -/
def from_dict (d : List (String × PyJson)) : Option SpiderTask :=
  match jStr (dictGet d "task_id"),
    (jStr (dictGet d "task_type")).bind TaskType.ofValue,
    (jStr (dictGet d "status")).bind TaskStatus.ofValue,
    jStr (dictGet d "created_at"),
    jStr (dictGet d "updated_at"),
    jStrList (dictGet d "urls"),
    jStr (dictGet d "spider_name"),
    jStr (dictGet d "method"),
    jStrDict (dictGet d "headers"),
    jInt (dictGet d "timeout"),
    jInt (dictGet d "max_retries"),
    jNum (dictGet d "delay"),
    jNum (dictGet d "progress"),
    jInt (dictGet d "processed_urls"),
    jInt (dictGet d "successful_count"),
    jInt (dictGet d "failed_count"),
    jOptStr (dictGet d "error_message"),
    jStrDict (dictGet d "result_files"),
    jOptNum (dictGet d "execution_time") with
  | some task_id, some task_type, some status, some created_at,
    some updated_at, some urls, some spider_name, some method, some headers,
    some timeout, some max_retries, some delay, some progress,
    some processed_urls, some successful_count, some failed_count,
    some error_message, some result_files, some execution_time =>
      some (SpiderTask.mk task_id task_type status created_at updated_at urls
        spider_name method headers timeout max_retries delay progress
        processed_urls successful_count failed_count error_message
        result_files execution_time)
  | _, _, _, _, _, _, _, _, _, _, _, _, _, _, _, _, _, _, _ => Option.none

/-- Reading back a serialized string list recovers it. -/
theorem strListFromJson_map (l : List String) :
    strListFromJson (l.map PyJson.str) = some l := by
  induction l with
  | nil => rfl
  | cons s rest ih => simp [strListFromJson, ih]

/-- Reading back a serialized string dict recovers it. -/
theorem strDictFromJson_map (l : List (String × String)) :
    strDictFromJson (l.map (fun p => (p.1, PyJson.str p.2))) = some l := by
  induction l with
  | nil => rfl
  | cons p rest ih => simp [strDictFromJson, ih]

/-- The enum conversion inverts serialization of `TaskStatus`. -/
theorem taskStatus_ofValue_value (s : TaskStatus) :
    TaskStatus.ofValue s.value = some s := by
  cases s <;> rfl

/-- The enum conversion inverts serialization of `TaskType`. -/
theorem taskType_ofValue_value (ty : TaskType) :
    TaskType.ofValue ty.value = some ty := by
  cases ty <;> rfl

/-- Claim C8: serializing a task record and deserializing the result
reproduces the record exactly, all fields included; in particular the
enum-valued `task_type` and `status` fields come back as enum members. -/
theorem c8_spec (t : SpiderTask) : from_dict (to_dict t) = some t := by
  obtain ⟨task_id, task_type, status, created_at, updated_at, urls, spider_name,
    method, headers, timeout, max_retries, delay, progress, processed_urls,
    successful_count, failed_count, error_message, result_files,
    execution_time⟩ := t
  cases error_message <;> cases execution_time <;>
    simp [to_dict, from_dict, dictGet, jStr, jInt, jNum, jStrList, jStrDict,
      jOptStr, jOptNum, optStrJson, optRatJson, strListFromJson_map,
      strDictFromJson_map, taskStatus_ofValue_value, taskType_ofValue_value,
      Rat.den_intCast, Rat.num_intCast, Option.bind]

/-! ## Progress behaviour (C9) -/

/-- A concrete single-URL task as `create_single_task` builds it (fresh ids
and timestamps fixed). -/
def exTask : SpiderTask :=
  ⟨"11111111-2222-3333-4444-555555555555", TaskType.SINGLE, TaskStatus.PENDING,
    "2024-01-01T00:00:00", "2024-01-01T00:00:00", ["https://example.com"],
    "default", "GET", [], 30, 3, 1, 0, 0, 0, 0, Option.none, [], Option.none⟩

/-- Claim C9, counterexample: `update_progress` with a smaller
`processed_urls` lowers `progress` — after reporting 1 of 1 URLs processed
(progress 100) a further `update_progress(0, 0, 0)` drops progress to 0, so
progress is not monotonically non-decreasing over lifetime operations. -/
theorem c9_counterexample :
    (applyOp (applyOp exTask (TaskOp.updProgress 1 1 0 "2024-01-01T00:00:01"))
        (TaskOp.updProgress 0 0 0 "2024-01-01T00:00:02")).progress
      < (applyOp exTask (TaskOp.updProgress 1 1 0 "2024-01-01T00:00:01")).progress := by
  norm_num [applyOp, update_progress_op, exTask]

/-- Claim C9 (amended): `progress` is set absolutely, not monotonically:
`update_progress` sets it to `processed / len(urls) * 100` whenever `urls`
is non-empty (and leaves it unchanged otherwise), so a call with a smaller
processed count lowers it; `set_completed` always sets 100, which never
lowers a progress that was ≤ 100; `update_status` does not change progress;
and across consecutive `update_progress` calls progress is non-decreasing
exactly when the processed counts are. -/
theorem c9_spec :
    (∀ (t : SpiderTask) (rf : List (String × String)) (e : ℚ) (now : String),
      (set_completed_op t rf e now).progress = 100 ∧
      (t.progress ≤ 100 → t.progress ≤ (set_completed_op t rf e now).progress)) ∧
    (∀ (t : SpiderTask) (st : TaskStatus) (err : Option String) (now : String),
      (update_status_op t st err now).progress = t.progress) ∧
    (∀ (t : SpiderTask) (p s f : Int) (now : String), 0 < t.urls.length →
      (update_progress_op t p s f now).progress =
        (p : ℚ) / (t.urls.length : ℚ) * 100) ∧
    (∀ (t : SpiderTask) (p s f : Int) (now : String), t.urls = [] →
      (update_progress_op t p s f now).progress = t.progress) ∧
    (∀ (t : SpiderTask) (p₁ s₁ f₁ p₂ s₂ f₂ : Int) (n₁ n₂ : String),
      0 < t.urls.length → p₁ ≤ p₂ →
      (update_progress_op t p₁ s₁ f₁ n₁).progress ≤
        (update_progress_op (update_progress_op t p₁ s₁ f₁ n₁) p₂ s₂ f₂ n₂).progress) := by
  refine ⟨?_, ?_, ?_, ?_, ?_⟩
  · intro t rf e now
    refine ⟨rfl, ?_⟩
    intro h
    simpa [set_completed_op] using h
  · intro t st err now
    rfl
  · intro t p s f now h
    simp [update_progress_op, if_pos h]
  · intro t p s f now h
    simp [update_progress_op, h]
  · intro t p₁ s₁ f₁ p₂ s₂ f₂ n₁ n₂ hlen hp
    have hlen' : (0 : ℚ) < (t.urls.length : ℚ) := by
      exact_mod_cast hlen
    have hpq : (p₁ : ℚ) ≤ (p₂ : ℚ) := by exact_mod_cast hp
    simp only [update_progress_op, if_pos hlen]
    gcongr

/-- Concrete instance of `c9_spec`: on a one-URL task, reporting 1 processed
URL sets progress to `1 / 1 * 100`. -/
theorem c9_witness :
    (update_progress_op exTask 1 1 0 "2024-01-01T00:00:01").progress =
      ((1 : Int) : ℚ) / ((exTask.urls.length : ℕ) : ℚ) * 100 :=
  (c9_spec.2.2.1 exTask 1 1 0 "2024-01-01T00:00:01" (by decide))

/-! ## Task store (`tasks/manager.py`)

The store is the four partition directories; a file is a task record keyed
by its filename (`{task_id}.json`), listed in `glob` order, with its
filesystem mtime. -/

/-- One `{task_id}.json` file: its id (filename stem), the record it holds,
and its last-modified time. -/
structure TaskFile where
  tid : String
  task : SpiderTask
  mtime : ℚ
deriving DecidableEq

/-- The four physical partition directories under `tasks/`. -/
inductive StoreDir where
  | pending
  | running
  | completed
  | failed
deriving DecidableEq

/-- `TaskManager._get_task_file_path`'s `status_dir_map`: `CANCELLED` shares
the `failed` directory. -/
def statusDir : TaskStatus → StoreDir
  | .PENDING => .pending
  | .RUNNING => .running
  | .COMPLETED => .completed
  | .FAILED => .failed
  | .CANCELLED => .failed

/-- The store: each directory's files in `glob` order. -/
structure TaskStore where
  pending : List TaskFile
  running : List TaskFile
  completed : List TaskFile
  failed : List TaskFile
deriving DecidableEq

/-- The files of one directory. -/
def dirFiles (s : TaskStore) : StoreDir → List TaskFile
  | .pending => s.pending
  | .running => s.running
  | .completed => s.completed
  | .failed => s.failed

/-- Replace the files of one directory. -/
def setDirFiles (s : TaskStore) : StoreDir → List TaskFile → TaskStore
  | .pending, l => { s with pending := l }
  | .running, l => { s with running := l }
  | .completed, l => { s with completed := l }
  | .failed, l => { s with failed := l }

/-- The file named `{tid}.json` in a directory, if present. -/
def fileGet : List TaskFile → String → Option TaskFile
  | [], _ => Option.none
  | f :: rest, tid => if f.tid = tid then some f else fileGet rest tid

/-- `open(path, 'w')` + write: replace the file's content (and mtime) in
place, or create it. -/
def fileWrite (files : List TaskFile) (tid : String) (task : SpiderTask)
    (mtime : ℚ) : List TaskFile :=
  match files with
  | [] => [⟨tid, task, mtime⟩]
  | f :: rest =>
      if f.tid = tid then ⟨tid, task, mtime⟩ :: rest
      else f :: fileWrite rest tid task mtime

/-- `path.unlink()`: remove the file named `{tid}.json`. -/
def fileRemove : List TaskFile → String → List TaskFile
  | [], _ => []
  | f :: rest, tid =>
      if f.tid = tid then fileRemove rest tid else f :: fileRemove rest tid

/-- `TaskManager._find_task_file`: probe the directories in `TaskStatus`
enumeration order — PENDING, RUNNING, COMPLETED, FAILED, CANCELLED — through
`statusDir`, so `failed` is probed twice and the first hit wins. -/
def findTaskDir (s : TaskStore) (tid : String) : Option StoreDir :=
  if (fileGet s.pending tid).isSome then some .pending
  else if (fileGet s.running tid).isSome then some .running
  else if (fileGet s.completed tid).isSome then some .completed
  else if (fileGet s.failed tid).isSome then some .failed
  else if (fileGet s.failed tid).isSome then some .failed
  else Option.none

/-- `TaskManager.create_task`: write the record at the path implied by its
current status; returns the task id. -/
def create_task (s : TaskStore) (t : SpiderTask) (mtime : ℚ) :
    TaskStore × String :=
  (setDirFiles s (statusDir t.status)
      (fileWrite (dirFiles s (statusDir t.status)) t.task_id t mtime),
    t.task_id)

/-- `TaskManager.get_task`: locate the record by scanning the partitions,
then read it. -/
def get_task (s : TaskStore) (tid : String) : Option SpiderTask :=
  match findTaskDir s tid with
  | Option.none => Option.none
  | some d => (fileGet (dirFiles s d) tid).map TaskFile.task

/-- `TaskManager.update_task`: write the record into its (new) status
partition first, then — when the located old path differs and still
exists — unlink the old file.  `unlinkFails` injects an `OSError` into
that unlink; the `except` branch returns `False`, leaving the new write in
place. -/
def update_task (s : TaskStore) (t : SpiderTask) (mtime : ℚ)
    (unlinkFails : Bool) : TaskStore × Bool :=
  let oldDir := findTaskDir s t.task_id
  let newDir := statusDir t.status
  let s1 := setDirFiles s newDir (fileWrite (dirFiles s newDir) t.task_id t mtime)
  match oldDir with
  | some d =>
      if d ≠ newDir ∧ (fileGet (dirFiles s1 d) t.task_id).isSome then
        if unlinkFails then (s1, false)
        else (setDirFiles s1 d (fileRemove (dirFiles s1 d) t.task_id), true)
      else (s1, true)
  | Option.none => (s1, true)

/-- The body of `TaskManager.cleanup_old_tasks` over one directory: unlink
every file whose mtime precedes the cutoff, counting deletions. -/
def cleanupFiles : List TaskFile → ℚ → List TaskFile × Nat
  | [], _ => ([], 0)
  | f :: rest, cutoff =>
      let r := cleanupFiles rest cutoff
      if f.mtime < cutoff then (r.1, r.2 + 1) else (f :: r.1, r.2)

/-- `TaskManager.cleanup_old_tasks`: scan only the `completed` and `failed`
directories. -/
def cleanup_old_tasks (s : TaskStore) (cutoff : ℚ) : TaskStore × Nat :=
  let rc := cleanupFiles s.completed cutoff
  let rf := cleanupFiles s.failed cutoff
  ({ s with completed := rc.1, failed := rf.1 }, rc.2 + rf.2)

/-- `TaskManager.list_tasks`'s type filter: `if task_type and
task.task_type != task_type: continue`. -/
def typeKeep (tyf : Option TaskType) (t : SpiderTask) : Bool :=
  match tyf with
  | Option.none => true
  | some ty => decide (t.task_type = ty)

/-- `TaskManager.list_tasks`'s limit check `if limit and len(tasks) >=
limit` (`limit = 0` is falsy, hence no limit). -/
def limitHit : Option Nat → Nat → Bool
  | Option.none, _ => false
  | some k, n => decide (k ≠ 0 ∧ k ≤ n)

/-- The inner `for file_path in search_dir.glob("*.json")` loop of
`list_tasks`: append each type-matching record, and `break` as soon as the
accumulated count reaches the limit (checked after appending). -/
def collectDir (tyf : Option TaskType) (lim : Option Nat) :
    List TaskFile → List SpiderTask → List SpiderTask
  | [], acc => acc
  | f :: rest, acc =>
      if typeKeep tyf f.task then
        let acc2 := acc ++ [f.task]
        if limitHit lim acc2.length then acc2 else collectDir tyf lim rest acc2
      else collectDir tyf lim rest acc

/-- The directories `list_tasks` scans: the single partition of the status
filter (through `statusDir`), or all four. -/
def searchDirs (s : TaskStore) : Option TaskStatus → List (List TaskFile)
  | some st => [dirFiles s (statusDir st)]
  | Option.none => [s.pending, s.running, s.completed, s.failed]

/-- The collection phase of `list_tasks` (the `break` leaves the inner loop
only, so scanning continues with the next directory). -/
def collectTasks (s : TaskStore) (stf : Option TaskStatus)
    (tyf : Option TaskType) (lim : Option Nat) : List SpiderTask :=
  (searchDirs s stf).foldl (fun acc d => collectDir tyf lim d acc) []

/-- Insertion step of `tasks.sort(key=lambda t: t.created_at,
reverse=True)`: place `t` before the first element with a strictly smaller
key (Python's sort is stable; `created_at` ISO timestamps compare as
strings). -/
def insertDesc (t : SpiderTask) : List SpiderTask → List SpiderTask
  | [] => [t]
  | x :: xs =>
      if t.created_at < x.created_at then x :: insertDesc t xs
      else t :: x :: xs

/-- Stable sort by `created_at` descending. -/
def sortDesc : List SpiderTask → List SpiderTask
  | [] => []
  | x :: xs => insertDesc x (sortDesc xs)

/-- `TaskManager.list_tasks`: collect (with the in-scan limit check), sort
by creation time descending, then truncate to the limit. -/
def list_tasks (s : TaskStore) (stf : Option TaskStatus)
    (tyf : Option TaskType) (lim : Option Nat) : List SpiderTask :=
  let sorted := sortDesc (collectTasks s stf tyf lim)
  match lim with
  | some k => if k ≠ 0 then sorted.take k else sorted
  | Option.none => sorted

/-- The records `list_tasks` is specified to return: every type-matching
record of every scanned directory. -/
def matchingTasks (s : TaskStore) (stf : Option TaskStatus)
    (tyf : Option TaskType) : List SpiderTask :=
  ((searchDirs s stf).map
    (fun d => (d.filter (fun f => typeKeep tyf f.task)).map TaskFile.task)).flatten

/-- Sorted by creation time descending. -/
def SortedDesc (l : List SpiderTask) : Prop :=
  List.Pairwise (fun a b => b.created_at ≤ a.created_at) l

/-- Writing a record's file makes it readable under its id, with the written
content. -/
theorem fileGet_fileWrite_self (files : List TaskFile) (tid : String)
    (task : SpiderTask) (m : ℚ) :
    fileGet (fileWrite files tid task m) tid = some ⟨tid, task, m⟩ := by
  induction files with
  | nil => simp [fileWrite, fileGet]
  | cons f rest ih =>
      by_cases h : f.tid = tid
      · simp [fileWrite, fileGet, h]
      · simp [fileWrite, fileGet, h, ih]

/-- Replacing one directory's files leaves that directory with them. -/
theorem dirFiles_setDirFiles_same (s : TaskStore) (d : StoreDir)
    (l : List TaskFile) : dirFiles (setDirFiles s d l) d = l := by
  cases d <;> rfl

/-- Replacing one directory's files leaves the others untouched. -/
theorem dirFiles_setDirFiles_ne (s : TaskStore) (d d' : StoreDir)
    (l : List TaskFile) (h : d ≠ d') :
    dirFiles (setDirFiles s d' l) d = dirFiles s d := by
  cases d <;> cases d' <;> first
    | rfl
    | exact absurd rfl h

/-- A successful partition probe means the file is in that partition. -/
theorem findTaskDir_isSome (s : TaskStore) (tid : String) (d : StoreDir)
    (h : findTaskDir s tid = some d) :
    (fileGet (dirFiles s d) tid).isSome = true := by
  unfold findTaskDir at h
  split_ifs at h with h1 h2 h3 h4 h5 <;>
    first
      | (injection h with hd; subst hd; assumption)
      | exact absurd h (by simp)

/-- `update_task` with a healthy filesystem always reports success. -/
theorem update_task_ok_snd (s : TaskStore) (t : SpiderTask) (m : ℚ) :
    (update_task s t m false).2 = true := by
  unfold update_task
  rcases findTaskDir s t.task_id with _ | d
  · rfl
  · dsimp only
    split
    · rfl
    · rfl

/-- Claim C7: when a task's status changed since it was last persisted,
`update_task` writes the record into the new status partition before
unlinking the old file; a failing unlink makes the call report failure but
does not undo the new write — the new-partition record holds the updated
task — and retrying the same update afterwards succeeds. -/
theorem c7_spec (s : TaskStore) (t : SpiderTask) (m₁ m₂ : ℚ) (d : StoreDir)
    (hfound : findTaskDir s t.task_id = some d)
    (hdiff : d ≠ statusDir t.status) :
    (update_task s t m₁ true).2 = false ∧
    (fileGet (dirFiles (update_task s t m₁ true).1 (statusDir t.status))
        t.task_id).map TaskFile.task = some t ∧
    (update_task (update_task s t m₁ true).1 t m₂ false).2 = true := by
  have hold : dirFiles
      (setDirFiles s (statusDir t.status)
        (fileWrite (dirFiles s (statusDir t.status)) t.task_id t m₁)) d =
      dirFiles s d :=
    dirFiles_setDirFiles_ne _ _ _ _ hdiff
  have hsome : (fileGet
      (dirFiles
        (setDirFiles s (statusDir t.status)
          (fileWrite (dirFiles s (statusDir t.status)) t.task_id t m₁)) d)
      t.task_id).isSome = true := by
    rw [hold]
    exact findTaskDir_isSome s t.task_id d hfound
  have hstep : update_task s t m₁ true =
      (setDirFiles s (statusDir t.status)
        (fileWrite (dirFiles s (statusDir t.status)) t.task_id t m₁), false) := by
    unfold update_task
    rw [hfound]
    dsimp only
    rw [if_pos ⟨hdiff, hsome⟩, if_pos rfl]
  refine ⟨by rw [hstep], ?_, update_task_ok_snd _ t m₂⟩
  rw [hstep]
  dsimp only
  rw [dirFiles_setDirFiles_same, fileGet_fileWrite_self]
  rfl

/-- `exTask` claimed by the executor: the same record marked RUNNING. -/
def exTaskRun : SpiderTask := { exTask with status := TaskStatus.RUNNING }

/-- `exTaskRun` finished: the same record marked COMPLETED. -/
def exTaskDone : SpiderTask := { exTask with status := TaskStatus.COMPLETED }

/-- A store holding `exTaskRun` in the `running` partition. -/
def exStoreRun : TaskStore :=
  ⟨[], [⟨exTask.task_id, exTaskRun, 0⟩], [], []⟩

/-- Concrete instance of `c7_spec`: moving a record from `running` to
`completed` with a failing unlink keeps the new record and a retry
succeeds. -/
theorem c7_witness :
    (update_task exStoreRun exTaskDone 1 true).2 = false ∧
    (fileGet (dirFiles (update_task exStoreRun exTaskDone 1 true).1
        (statusDir exTaskDone.status)) exTaskDone.task_id).map TaskFile.task =
      some exTaskDone ∧
    (update_task (update_task exStoreRun exTaskDone 1 true).1 exTaskDone 2
        false).2 = true :=
  c7_spec exStoreRun exTaskDone 1 2 StoreDir.running (by decide) (by decide)

/-- A record older than the cutoff does not survive a directory sweep. -/
theorem cleanupFiles_not_mem (files : List TaskFile) (c : ℚ) (f : TaskFile)
    (hm : f.mtime < c) : f ∉ (cleanupFiles files c).1 := by
  induction files with
  | nil => simp [cleanupFiles]
  | cons g rest ih =>
      by_cases hg : g.mtime < c
      · simpa [cleanupFiles, hg] using ih
      · have hfg : f ≠ g := by
          intro h
          rw [h] at hm
          exact hg hm
        simp only [cleanupFiles, if_neg hg, List.mem_cons]
        rintro (h | h)
        · exact hfg h
        · exact ih h

/-- A record older than the cutoff is counted by the sweep. -/
theorem cleanupFiles_count_pos (files : List TaskFile) (c : ℚ) (f : TaskFile)
    (hf : f ∈ files) (hm : f.mtime < c) : 1 ≤ (cleanupFiles files c).2 := by
  induction files with
  | nil => exact absurd hf (List.not_mem_nil f)
  | cons g rest ih =>
      by_cases hg : g.mtime < c
      · simp [cleanupFiles, hg]
      · rcases List.mem_cons.mp hf with h | h
        · rw [h] at hm
          exact absurd hm hg
        · simpa [cleanupFiles, hg] using ih h

/-- Claim C10: `CANCELLED` records are persisted in the `failed` partition
directory; the age-based cleanup (which scans only `completed` and `failed`,
leaving `pending`/`running` untouched) therefore also deletes and counts
`CANCELLED` records older than the cutoff; and `get_task` finds a
`CANCELLED` record via the `failed` partition probe. -/
theorem c10_spec :
    statusDir TaskStatus.CANCELLED = statusDir TaskStatus.FAILED ∧
    (∀ (s : TaskStore) (t : SpiderTask) (m : ℚ),
      t.status = TaskStatus.CANCELLED →
      (create_task s t m).1 =
        setDirFiles s StoreDir.failed (fileWrite s.failed t.task_id t m)) ∧
    (∀ (s : TaskStore) (cutoff : ℚ),
      (cleanup_old_tasks s cutoff).1.pending = s.pending ∧
      (cleanup_old_tasks s cutoff).1.running = s.running) ∧
    (∀ (s : TaskStore) (cutoff : ℚ) (f : TaskFile),
      f ∈ s.failed → f.mtime < cutoff →
      f ∉ (cleanup_old_tasks s cutoff).1.failed ∧
      1 ≤ (cleanup_old_tasks s cutoff).2) ∧
    (∀ (s : TaskStore) (tid : String) (f : TaskFile),
      fileGet s.pending tid = Option.none →
      fileGet s.running tid = Option.none →
      fileGet s.completed tid = Option.none →
      fileGet s.failed tid = some f →
      get_task s tid = some f.task) := by
  refine ⟨rfl, ?_, ?_, ?_, ?_⟩
  · intro s t m ht
    simp [create_task, ht, statusDir, dirFiles]
  · intro s cutoff
    exact ⟨rfl, rfl⟩
  · intro s cutoff f hf hm
    refine ⟨cleanupFiles_not_mem s.failed cutoff f hm, ?_⟩
    calc 1 ≤ (cleanupFiles s.failed cutoff).2 :=
          cleanupFiles_count_pos s.failed cutoff f hf hm
      _ ≤ (cleanupFiles s.completed cutoff).2 + (cleanupFiles s.failed cutoff).2 :=
          Nat.le_add_left _ _
  · intro s tid f h1 h2 h3 h4
    simp [get_task, findTaskDir, dirFiles, h1, h2, h3, h4]

/-- A cancelled task record. -/
def exTaskCancelled : SpiderTask :=
  { exTask with task_id := "c1", status := TaskStatus.CANCELLED }

/-- A store holding the cancelled record — in the `failed` partition, where
`statusDir` puts it. -/
def exStoreCancelled : TaskStore :=
  ⟨[], [], [], [⟨"c1", exTaskCancelled, 0⟩]⟩

/-- Concrete instance of `c10_spec`: a week-old cancelled record is swept
from the failed partition, and is found by `get_task` before that. -/
theorem c10_witness :
    (⟨"c1", exTaskCancelled, 0⟩ : TaskFile) ∉
        (cleanup_old_tasks exStoreCancelled 5).1.failed ∧
    get_task exStoreCancelled "c1" = some exTaskCancelled :=
  ⟨(c10_spec.2.2.2.1 exStoreCancelled 5 ⟨"c1", exTaskCancelled, 0⟩
      (by decide) (by decide)).1,
    c10_spec.2.2.2.2 exStoreCancelled "c1" ⟨"c1", exTaskCancelled, 0⟩
      rfl rfl rfl (by decide)⟩

/-- Inserting into the descending order is a permutation of consing. -/
theorem insertDesc_perm (t : SpiderTask) (l : List SpiderTask) :
    (insertDesc t l).Perm (t :: l) := by
  induction l with
  | nil => simp [insertDesc]
  | cons x xs ih =>
      by_cases hlt : t.created_at < x.created_at
      · simp only [insertDesc, if_pos hlt]
        exact (List.Perm.cons x ih).trans (List.Perm.swap t x xs)
      · simp only [insertDesc, if_neg hlt]
        exact List.Perm.refl _

/-- The sort phase of `list_tasks` permutes the collected records. -/
theorem sortDesc_perm (l : List SpiderTask) : (sortDesc l).Perm l := by
  induction l with
  | nil => exact List.Perm.refl []
  | cons x xs ih => exact (insertDesc_perm x (sortDesc xs)).trans (ih.cons x)

/-- Inserting into a descending-sorted list keeps it descending-sorted. -/
theorem insertDesc_sorted (t : SpiderTask) (l : List SpiderTask)
    (h : SortedDesc l) : SortedDesc (insertDesc t l) := by
  induction l with
  | nil =>
      unfold SortedDesc
      simp [insertDesc]
  | cons x xs ih =>
      unfold SortedDesc at h ⊢
      rw [List.pairwise_cons] at h
      obtain ⟨hx, hxs⟩ := h
      by_cases hlt : t.created_at < x.created_at
      · simp only [insertDesc, if_pos hlt]
        rw [List.pairwise_cons]
        refine ⟨?_, ih hxs⟩
        intro b hb
        rcases List.mem_cons.mp ((insertDesc_perm t xs).mem_iff.mp hb) with rfl | hb'
        · exact le_of_lt hlt
        · exact hx b hb'
      · simp only [insertDesc, if_neg hlt]
        rw [List.pairwise_cons]
        constructor
        · intro b hb
          rcases List.mem_cons.mp hb with rfl | hb'
          · exact not_lt.mp hlt
          · exact le_trans (hx b hb') (not_lt.mp hlt)
        · rw [List.pairwise_cons]
          exact ⟨hx, hxs⟩

/-- The sort phase of `list_tasks` sorts by creation time descending. -/
theorem sortDesc_sorted (l : List SpiderTask) : SortedDesc (sortDesc l) := by
  induction l with
  | nil => exact List.Pairwise.nil
  | cons x xs ih => exact insertDesc_sorted x (sortDesc xs) ih

/-- Without a limit, scanning one directory appends exactly its
type-matching records, in glob order. -/
theorem collectDir_none (tyf : Option TaskType) :
    ∀ (files : List TaskFile) (acc : List SpiderTask),
      collectDir tyf Option.none files acc =
        acc ++ (files.filter (fun f => typeKeep tyf f.task)).map TaskFile.task := by
  intro files
  induction files with
  | nil => intro acc; simp [collectDir]
  | cons f rest ih =>
      intro acc
      by_cases hk : typeKeep tyf f.task
      · simp [collectDir, hk, limitHit, ih, List.append_assoc]
      · simp [collectDir, hk, ih]

/-- With any limit, everything the directory scan collects is either carried
over or a type-matching record of that directory. -/
theorem collectDir_mem (tyf : Option TaskType) (lim : Option Nat) :
    ∀ (files : List TaskFile) (acc : List SpiderTask) (x : SpiderTask),
      x ∈ collectDir tyf lim files acc →
      x ∈ acc ∨
        x ∈ (files.filter (fun f => typeKeep tyf f.task)).map TaskFile.task := by
  intro files
  induction files with
  | nil =>
      intro acc x hx
      exact Or.inl (by simpa [collectDir] using hx)
  | cons f rest ih =>
      intro acc x hx
      by_cases hk : typeKeep tyf f.task
      · simp only [collectDir, hk, if_true] at hx
        by_cases hl : limitHit lim (acc ++ [f.task]).length
        · rw [if_pos hl] at hx
          rcases List.mem_append.mp hx with h | h
          · exact Or.inl h
          · right
            simp only [List.mem_singleton] at h
            simp [List.filter_cons, hk, h]
        · rw [if_neg hl] at hx
          rcases ih (acc ++ [f.task]) x hx with h | h
          · rcases List.mem_append.mp h with h' | h'
            · exact Or.inl h'
            · right
              simp only [List.mem_singleton] at h'
              simp [List.filter_cons, hk, h']
          · right
            simp [List.filter_cons, hk]
            right
            simpa using h
      · simp only [collectDir, hk, Bool.false_eq_true, if_false] at hx
        rcases ih acc x hx with h | h
        · exact Or.inl h
        · right
          simpa [List.filter_cons, hk] using h

/-- Without a limit, the whole collection phase gathers exactly the
type-matching records of the scanned directories. -/
theorem foldl_collect_none (tyf : Option TaskType) :
    ∀ (dirs : List (List TaskFile)) (acc : List SpiderTask),
      dirs.foldl (fun a d => collectDir tyf Option.none d a) acc =
        acc ++ (dirs.map
          (fun d => (d.filter (fun f => typeKeep tyf f.task)).map
            TaskFile.task)).flatten := by
  intro dirs
  induction dirs with
  | nil => intro acc; simp
  | cons d rest ih =>
      intro acc
      simp only [List.foldl_cons, List.map_cons, List.flatten_cons]
      rw [collectDir_none, ih, List.append_assoc]

/-- With any limit, everything the collection phase gathers is a
type-matching record of a scanned directory. -/
theorem foldl_collect_mem (tyf : Option TaskType) (lim : Option Nat) :
    ∀ (dirs : List (List TaskFile)) (acc : List SpiderTask) (x : SpiderTask),
      x ∈ dirs.foldl (fun a d => collectDir tyf lim d a) acc →
      x ∈ acc ∨
        x ∈ (dirs.map
          (fun d => (d.filter (fun f => typeKeep tyf f.task)).map
            TaskFile.task)).flatten := by
  intro dirs
  induction dirs with
  | nil => intro acc x hx; exact Or.inl (by simpa using hx)
  | cons d rest ih =>
      intro acc x hx
      simp only [List.foldl_cons] at hx
      rcases ih (collectDir tyf lim d acc) x hx with h | h
      · rcases collectDir_mem tyf lim d acc x h with h' | h'
        · exact Or.inl h'
        · right
          simp only [List.map_cons, List.flatten_cons, List.mem_append]
          exact Or.inl h'
      · right
        simp only [List.map_cons, List.flatten_cons, List.mem_append]
        exact Or.inr h

/-- The unlimited collection phase gathers exactly the matching records. -/
theorem collectTasks_none_eq (s : TaskStore) (stf : Option TaskStatus)
    (tyf : Option TaskType) :
    collectTasks s stf tyf Option.none = matchingTasks s stf tyf := by
  unfold collectTasks matchingTasks
  rw [foldl_collect_none]
  rfl

/-- Claim C6 (amended): without a limit, `list_tasks` returns exactly the
matching records (the type-matching records of the scanned partitions)
sorted by creation time descending.  With a limit `k > 0` it returns at most
`k` records, sorted descending and all matching — but the limit check runs
during the directory scan (`break` after the `k`-th append), before sorting,
so the result is drawn from a scan-order prefix and need not be the `k`
newest matching records. -/
theorem c6_spec (s : TaskStore) (stf : Option TaskStatus)
    (tyf : Option TaskType) :
    (list_tasks s stf tyf Option.none).Perm (matchingTasks s stf tyf) ∧
    SortedDesc (list_tasks s stf tyf Option.none) ∧
    (∀ k : Nat, k ≠ 0 →
      (list_tasks s stf tyf (some k)).length ≤ k ∧
      SortedDesc (list_tasks s stf tyf (some k)) ∧
      ∀ x ∈ list_tasks s stf tyf (some k), x ∈ matchingTasks s stf tyf) := by
  refine ⟨?_, sortDesc_sorted _, ?_⟩
  · show (sortDesc (collectTasks s stf tyf Option.none)).Perm _
    rw [collectTasks_none_eq]
    exact sortDesc_perm _
  · intro k hk
    have hred : list_tasks s stf tyf (some k) =
        (sortDesc (collectTasks s stf tyf (some k))).take k := by
      unfold list_tasks
      dsimp only
      rw [if_pos hk]
    refine ⟨?_, ?_, ?_⟩
    · rw [hred]
      exact List.length_take_le k _
    · rw [hred]
      exact (sortDesc_sorted _).sublist (List.take_sublist k _)
    · intro x hx
      rw [hred] at hx
      have hx2 : x ∈ collectTasks s stf tyf (some k) :=
        (sortDesc_perm _).mem_iff.mp (List.mem_of_mem_take hx)
      rcases foldl_collect_mem tyf (some k) (searchDirs s stf) [] x hx2 with h | h
      · exact absurd h (List.not_mem_nil x)
      · exact h

/-- The older of two FAILED records, first in glob order. -/
def exTaskOldF : SpiderTask :=
  { exTask with
    task_id := "a"
    created_at := "2024-01-01T00:00:00"
    status := TaskStatus.FAILED }

/-- The newer of two FAILED records, second in glob order. -/
def exTaskNewF : SpiderTask :=
  { exTask with
    task_id := "b"
    created_at := "2024-01-02T00:00:00"
    status := TaskStatus.FAILED }

/-- A store whose failed partition lists the older record before the newer
one. -/
def exStoreTwo : TaskStore :=
  ⟨[], [], [], [⟨"a", exTaskOldF, 0⟩, ⟨"b", exTaskNewF, 0⟩]⟩

/-- Claim C6, counterexample: with `limit = 1` the scan stops at the first
(older) record, so `list_tasks` returns the older record — not the first
element of the fully sorted descending sequence (the newest record), as the
claim requires. -/
theorem c6_counterexample :
    list_tasks exStoreTwo (some TaskStatus.FAILED) Option.none (some 1) ≠
      (sortDesc (matchingTasks exStoreTwo (some TaskStatus.FAILED)
        Option.none)).take 1 := by
  have hcmp : exTaskOldF.created_at < exTaskNewF.created_at := by
    show ("2024-01-01T00:00:00" : String) < "2024-01-02T00:00:00"
    rw [String.lt_iff_toList_lt]
    decide
  have hL : list_tasks exStoreTwo (some TaskStatus.FAILED) Option.none
      (some 1) = [exTaskOldF] := rfl
  have hR : (sortDesc (matchingTasks exStoreTwo (some TaskStatus.FAILED)
      Option.none)).take 1 = [exTaskNewF] := by
    show (sortDesc [exTaskOldF, exTaskNewF]).take 1 = [exTaskNewF]
    simp only [sortDesc, insertDesc, if_pos hcmp]
    rfl
  rw [hL, hR]
  intro h
  have : exTaskOldF = exTaskNewF := List.head_eq_of_cons_eq h
  exact absurd (congrArg SpiderTask.task_id this) (by decide)

/-- Concrete instance of `c6_spec`: the limited listing on the two-record
store returns at most one record. -/
theorem c6_witness :
    (list_tasks exStoreTwo (some TaskStatus.FAILED) Option.none
      (some 1)).length ≤ 1 :=
  ((c6_spec exStoreTwo (some TaskStatus.FAILED) Option.none).2.2 1
    (by decide)).1

end WebCraft
